import Mathlib

/-!
Shallow embedding of the resume-filter application: `main.py` and
`utils/parser.py`.

Modelling conventions:
* Python strings are Lean `String` / `List Char`; `str.lower()` maps
  `Char.toLower` over the characters, substring containment
  (`needle in haystack`) is an explicit scan, `str.strip()` drops
  whitespace characters from both ends, and `os.path.splitext` is
  translated clause by clause from its posix implementation.
* The file store (the flat `uploads/` directory) is the list of its
  filenames in listing order, as the spec's Store capability prescribes;
  writing a blob is recorded by its filename, since no control flow of
  the endpoints depends on blob contents.
* Text produced by the external parsing libraries (PyPDF2, python-docx)
  enters as data: page or paragraph texts for the two extraction
  helpers, and an extraction oracle `String → Option String` for the
  endpoints, `none` standing for Python `None` (extraction failure) and
  `some ""` for an extraction that yielded no text.
* A raised `HTTPException` is `Except.error detail`; endpoints that
  touch the store also return the store contents (or the list of
  documents read) so that their side effects are part of the model.
-/

deriving instance DecidableEq for Except

namespace ResumeFilter

/-- Python `str.lower()`, character by character. -/
def pyLower (s : List Char) : List Char := s.map Char.toLower

/-- Does `needle` occur at the very front of `haystack`? -/
def matchesFront : List Char → List Char → Bool
  | [], _ => true
  | _ :: _, [] => false
  | a :: as, b :: bs => a == b && matchesFront as bs

/-- Python substring containment `needle in haystack`: `needle` occurs
at some position of `haystack`. -/
def containsSeq (needle : List Char) : List Char → Bool
  | [] => needle.isEmpty
  | b :: bs => matchesFront needle (b :: bs) || containsSeq needle bs

/-- Whitespace test used by Python `str.strip()`. -/
def isSpaceChar (c : Char) : Bool := c.isWhitespace

/-- Trailing-whitespace removal (Python `str.rstrip()`). -/
def pyRstrip (s : List Char) : List Char :=
  (s.reverse.dropWhile isSpaceChar).reverse

/-- Python `str.strip()`: whitespace dropped from both ends. -/
def pyStrip (s : List Char) : List Char :=
  (pyRstrip s).dropWhile isSpaceChar

/-- Python `str.rfind(c)`: index of the last occurrence of `c`, `-1`
when absent. -/
def rfindChar (c : Char) : List Char → Int
  | [] => -1
  | x :: xs =>
    let r := rfindChar c xs
    if 0 ≤ r then r + 1 else if x == c then 0 else -1

/-- Model of `os.path.splitext` (posix form): split at the last dot
lying after the last `/`, unless every character of the basename up to
that dot is itself a dot (leading dots of a hidden file are not an
extension separator). -/
def splitext (p : List Char) : List Char × List Char :=
  let sepIdx := rfindChar '/' p
  let dotIdx := rfindChar '.' p
  if sepIdx < dotIdx then
    let fnIdx := (sepIdx + 1).toNat
    let base := (p.drop fnIdx).take (dotIdx.toNat - fnIdx)
    if base.any (fun ch => ch != '.') then (p.take dotIdx.toNat, p.drop dotIdx.toNat)
    else (p, [])
  else (p, [])

/-- The page-concatenation step of `ResumeParser.extract_text_from_pdf`:
the loop `text += page.extract_text() + "\n"` over the pages in page
order, then `text.strip()`.  `pages` is the list of page texts returned
by PyPDF2; the exception path of the source returns `None` and is not
part of this success-path computation. -/
def extract_text_from_pdf (pages : List (List Char)) : List Char :=
  pyStrip (pages.foldl (fun acc p => acc ++ p ++ ['\n']) [])

/-- Success path of `ResumeParser.extract_text_from_docx`:
`"\n".join(paragraph texts)` followed by `strip()`. -/
def extract_text_from_docx (paragraphs : List (List Char)) : List Char :=
  pyStrip (List.intercalate ['\n'] paragraphs)

/-- Python truthiness of the `text` value (`if not text:` in the
source): `None` and the empty string are falsy. -/
def textFalsy : Option String → Bool
  | none => true
  | some t => t.data.isEmpty

/-- Spec-side matching predicate: the keyword's lowercase form occurs
in the lowercased text. -/
def kwMatches (t : String) (k : String) : Bool :=
  containsSeq (pyLower k.data) (pyLower t.data)

/-- `ResumeParser.search_keywords`: guard on falsy text, then one pass
over the keywords appending each whose lowercase form occurs in the
lowercased text.  The result dict is the pair
(`matched_keywords`, `score`). -/
def search_keywords (text : Option String) (keywords : List String) : List String × Nat :=
  if textFalsy text then ([], 0)
  else
    let textLower := pyLower ((text.getD "").data)
    let matched := keywords.foldl
      (fun acc kw => if containsSeq (pyLower kw.data) textLower then acc ++ [kw] else acc) []
    (matched, matched.length)

/-- `ResumeParser.extract_text`: dispatch on the lowercased extension
of the path.  The two library parsers are oracle parameters, so a
result proved for all oracles holds whatever those libraries do. -/
def extract_text (pdfO docxO : String → Option String) (path : String) : Option String :=
  let ext := pyLower (splitext path.data).2
  if ext = ".pdf".data then pdfO path
  else if ext = ".docx".data then docxO path
  else none

/-- `is_allowed_file` from `main.py`: the lowercased extension lies in
`ALLOWED_EXTENSIONS = \x7b".pdf", ".docx"\x7d`. -/
def is_allowed_file (filename : String) : Bool :=
  pyLower (splitext filename.data).2 == ".pdf".data ||
  pyLower (splitext filename.data).2 == ".docx".data

/-- `get_uploaded_resumes`: the `uploads/` directory listing filtered
to allowed extensions.  `store` is that listing. -/
def get_uploaded_resumes (store : List String) : List String :=
  store.filter is_allowed_file

/-- Effect on the store of saving a blob under `f` (the `open`/
`copyfileobj` block): overwriting keeps the name set, a new name joins
the listing. -/
def writeFile (store : List String) (f : String) : List String :=
  if f ∈ store then store else store ++ [f]

/-- The loop of `upload_resumes`: each file is validated and then
immediately saved before the next one is looked at.  Returns the
endpoint result (the `uploaded_files` echo on success, the
invalid-extension detail on failure) together with the final store. -/
def uploadLoop (store uploaded : List String) :
    List String → Except String (List String) × List String
  | [] => (Except.ok uploaded, store)
  | f :: rest =>
    if is_allowed_file f then uploadLoop (writeFile store f) (uploaded ++ [f]) rest
    else
      (Except.error ("File " ++ f ++ " has invalid extension. Only PDF and DOCX allowed."),
       store)

/-- `upload_resumes` endpoint: empty-batch guard, then the
validate-and-save loop. -/
def upload_resumes (store : List String) (files : List String) :
    Except String (List String) × List String :=
  if files.isEmpty then (Except.error "No files provided", store)
  else uploadLoop store [] files

/-- Effect of `os.remove` on the abstract store: the named file is
gone, everything else remains in order. -/
def removeName (store : List String) (filename : String) : List String :=
  store.filter (fun n => n != filename)

/-- `delete_resume` endpoint: `os.path.exists` on the joined path is
membership of the filename in the flat store. -/
def delete_resume (store : List String) (filename : String) :
    Except String String × List String :=
  if filename ∈ store then
    (Except.ok ("Resume " ++ filename ++ " deleted successfully"), removeName store filename)
  else (Except.error "Resume not found", store)

/-- Entry of `matched_resumes` (the `ResumeMatch` model of `main.py`). -/
structure ResumeMatch where
  filename : String
  matched_keywords : List String
  score : Nat
  deriving DecidableEq

/-- Shape of a successful `/filter` response (the human-readable
`message` strings and the `keywords_searched` echo carry no logic and
are omitted). -/
structure FilterResponse where
  matched_resumes : List ResumeMatch
  total_resumes : Nat
  deriving DecidableEq

/-- The per-document loop of `filter_resumes`: extract, test Python
truthiness of the text, score, keep positive scores, in listing order.
The second component lists the documents whose contents were read, as
the I/O trace of the loop. -/
def processDocs (kws : List String) :
    List (String × Option String) → List ResumeMatch × List String
  | [] => ([], [])
  | (fn, t) :: rest =>
    if textFalsy t then
      ((processDocs kws rest).1, fn :: (processDocs kws rest).2)
    else
      let r := search_keywords t kws
      (if 0 < r.2
        then { filename := fn, matched_keywords := r.1, score := r.2 } :: (processDocs kws rest).1
        else (processDocs kws rest).1,
       fn :: (processDocs kws rest).2)

/-- The comparison under `sort(key=lambda x: x["score"], reverse=True)`:
`a` may stand before `b` when its score is at least `b`'s. -/
def scoreGe (a b : ResumeMatch) : Prop := b.score ≤ a.score

instance : DecidableRel scoreGe := fun a b => Nat.decLe b.score a.score

instance : IsTotal ResumeMatch scoreGe := ⟨fun a b => Nat.le_total b.score a.score⟩

instance : IsTrans ResumeMatch scoreGe := ⟨fun _ _ _ h1 h2 => Nat.le_trans h2 h1⟩

/-- `filter_resumes` endpoint: keyword guard, listing, the
per-document loop, then the sort.  Python `list.sort` is stable and
`reverse=True` keeps it stable, so the sort step is the stable
descending sort, which `List.insertionSort` with `scoreGe` computes.
The oracle `extract` stands for
`ResumeParser.extract_text(os.path.join(UPLOAD_DIR, filename))`; the
second component is the list of documents read. -/
def filter_resumes (store : List String) (extract : String → Option String)
    (kws : List String) : Except String FilterResponse × List String :=
  if kws.isEmpty then (Except.error "No keywords provided", [])
  else
    if (get_uploaded_resumes store).isEmpty then
      (Except.ok { matched_resumes := [], total_resumes := 0 }, [])
    else
      (Except.ok
        { matched_resumes :=
            List.insertionSort scoreGe
              (processDocs kws ((get_uploaded_resumes store).map (fun fn => (fn, extract fn)))).1,
          total_resumes := (get_uploaded_resumes store).length },
       (processDocs kws ((get_uploaded_resumes store).map (fun fn => (fn, extract fn)))).2)

/-- The documents the filter loop runs over: the filtered listing
paired with each document's extraction result. -/
def listedDocs (store : List String) (extract : String → Option String) :
    List (String × Option String) :=
  (get_uploaded_resumes store).map (fun fn => (fn, extract fn))

/-- Spec-side form of the kept documents: every listed document whose
score is positive, in listing order, carrying its match result. -/
def keptSpec (kws : List String) (docs : List (String × Option String)) : List ResumeMatch :=
  docs.filterMap (fun d =>
    let r := search_keywords d.2 kws
    if 0 < r.2 then some { filename := d.1, matched_keywords := r.1, score := r.2 } else none)

/-- The `matched_resumes` list of an endpoint outcome (empty on the
error outcome). -/
def matchedOf (r : Except String FilterResponse) : List ResumeMatch :=
  match r with
  | Except.ok resp => resp.matched_resumes
  | Except.error _ => []

/-- The `total_resumes` count of an endpoint outcome (zero on the
error outcome). -/
def totalOf (r : Except String FilterResponse) : Nat :=
  match r with
  | Except.ok resp => resp.total_resumes
  | Except.error _ => 0

/-- Score selector used to state tie stability. -/
def scoreIs (s : Nat) (m : ResumeMatch) : Bool := m.score == s

/-- Positivity of a match's score, as a Boolean test. -/
def scorePos (m : ResumeMatch) : Bool := m.score != 0

/-- Concrete PDF parsing oracle for witnesses. -/
def pdfOracleDemo : String → Option String := fun _ => some "PDF TEXT"

/-- Concrete DOCX parsing oracle for witnesses. -/
def docxOracleDemo : String → Option String := fun _ => some "DOCX TEXT"

/-- Concrete extraction oracle for the C4 witness. -/
def extractDemo : String → Option String := fun fn =>
  if fn = "a.pdf" then some "python and sql"
  else if fn = "b.docx" then some "python" else none

/-! Helper lemmas about the keyword scorer. -/

theorem textFalsy_eq_false (t : String) (h : t ≠ "") : textFalsy (some t) = false := by
  cases t with
  | mk d =>
    cases d with
    | nil => exact absurd rfl h
    | cons a as => rfl

theorem foldl_append_filter (p : String → Bool) :
    ∀ (l acc : List String),
      l.foldl (fun a k => if p k then a ++ [k] else a) acc = acc ++ l.filter p
  | [], acc => by simp
  | k :: l, acc => by
    by_cases h : p k
    · simp [List.foldl_cons, List.filter_cons, h, foldl_append_filter p l]
    · simp [List.foldl_cons, List.filter_cons, h, foldl_append_filter p l]

theorem search_keywords_some_eq (t : String) (K : List String)
    (h : textFalsy (some t) = false) :
    search_keywords (some t) K = (K.filter (kwMatches t), (K.filter (kwMatches t)).length) := by
  have hf := foldl_append_filter (kwMatches t) K []
  simp only [kwMatches] at hf
  simp [search_keywords, h, hf]

theorem containsSeq_nil_left : ∀ l : List Char, containsSeq [] l = true
  | [] => rfl
  | _ :: _ => rfl

theorem search_keywords_falsy (t : Option String) (kws : List String)
    (h : textFalsy t = true) : search_keywords t kws = ([], 0) := by
  simp [search_keywords, h]

/-! Claim C2. -/

/-- C2 as stated is false at text `""` with keyword list `[""]`: the
empty keyword's lowercase form is a substring of the lowercased empty
text, so the claimed score is `1`, but the falsy-text guard of
`search_keywords` returns score `0`. -/
theorem search_keywords_count_claim_false :
    (search_keywords (some "") [""]).2 = 0 ∧
    ([""] : List String).countP (kwMatches "") = 1 ∧
    (search_keywords (some "") [""]).2 ≠ ([""] : List String).countP (kwMatches "") := by
  decide

/-- C2 (amended): for every present non-empty text, the matched list is
exactly the sublist of keywords whose lowercase form occurs in the
lowercased text, in input order with casing and duplicates preserved;
the score is the count of such keywords and equals the matched list's
length.  (For absent or empty text the guard returns `([], 0)`
regardless of the keywords, which differs from the claimed count
exactly when the keyword list contains the empty string.) -/
theorem search_keywords_matches_filter (t : String) (K : List String) (h : t ≠ "") :
    (search_keywords (some t) K).1 = K.filter (kwMatches t) ∧
    (search_keywords (some t) K).2 = K.countP (kwMatches t) ∧
    (search_keywords (some t) K).2 = (search_keywords (some t) K).1.length := by
  have hf := search_keywords_some_eq t K (textFalsy_eq_false t h)
  rw [hf]
  refine ⟨rfl, ?_, rfl⟩
  simp [List.countP_eq_length_filter]

/-- Witness for the amended C2 at a concrete text and keyword list. -/
theorem search_keywords_matches_filter_witness :
    ("Senior Python dev" : String) ≠ "" ∧
    ((search_keywords (some "Senior Python dev") ["python", "java", "python"]).1
        = (["python", "java", "python"] : List String).filter (kwMatches "Senior Python dev") ∧
     (search_keywords (some "Senior Python dev") ["python", "java", "python"]).2
        = (["python", "java", "python"] : List String).countP (kwMatches "Senior Python dev") ∧
     (search_keywords (some "Senior Python dev") ["python", "java", "python"]).2
        = (search_keywords (some "Senior Python dev") ["python", "java", "python"]).1.length) :=
  ⟨by decide,
   search_keywords_matches_filter "Senior Python dev" ["python", "java", "python"] (by decide)⟩

/-! Claim C5. -/

/-- C5: absent or empty text yields matched list `[]` and score `0`,
for every keyword list, as an ordinary defined result. -/
theorem search_keywords_empty_text (K : List String) :
    search_keywords none K = ([], 0) ∧ search_keywords (some "") K = ([], 0) :=
  ⟨rfl, rfl⟩

/-! Claim C9. -/

/-- C9: an empty-string keyword matches every present non-empty text:
the matched list holds exactly as many copies of `""` as the keyword
list does, each counting toward the score, while absent or empty text
still yields the `([], 0)` result. -/
theorem empty_keyword_always_matches (t : String) (K : List String) (h : t ≠ "") :
    (search_keywords (some t) K).1.count "" = K.count "" ∧
    search_keywords none K = ([], 0) ∧
    search_keywords (some "") K = ([], 0) := by
  refine ⟨?_, rfl, rfl⟩
  have hf := search_keywords_some_eq t K (textFalsy_eq_false t h)
  rw [hf]
  have hp : kwMatches t "" = true := by
    have h0 : pyLower "".data = [] := rfl
    unfold kwMatches
    rw [h0]
    exact containsSeq_nil_left _
  exact List.count_filter hp

/-- Witness for C9 at a concrete text and keyword list holding two
empty-string keywords. -/
theorem empty_keyword_always_matches_witness :
    ("ab" : String) ≠ "" ∧
    ((search_keywords (some "ab") ["", "zz", ""]).1.count ""
        = (["", "zz", ""] : List String).count "" ∧
     search_keywords none ["", "zz", ""] = ([], 0) ∧
     search_keywords (some "") ["", "zz", ""] = ([], 0)) :=
  ⟨by decide, empty_keyword_always_matches "ab" ["", "zz", ""] (by decide)⟩

/-! Helper lemmas about page concatenation and stripping. -/

theorem foldl_append_newline (c : Char) :
    ∀ (l : List (List Char)) (acc : List Char),
      l.foldl (fun a q => a ++ q ++ [c]) acc = acc ++ (l.map (fun q => q ++ [c])).flatten
  | [], acc => by simp
  | p :: ps, acc => by
    rw [List.foldl_cons, foldl_append_newline c ps]
    simp [List.append_assoc]

theorem intercalate_cons_cons_char (s a b : List Char) (l : List (List Char)) :
    List.intercalate s (a :: b :: l) = a ++ (s ++ List.intercalate s (b :: l)) := by
  simp [List.intercalate, List.intersperse_cons_cons, List.flatten_cons]

theorem trailing_join_eq_intercalate (c : Char) :
    ∀ (p : List Char) (ps : List (List Char)),
      ((p :: ps).map (fun q => q ++ [c])).flatten = List.intercalate [c] (p :: ps) ++ [c]
  | _, [] => by simp [List.intercalate]
  | p, q :: ps => by
    have ih := trailing_join_eq_intercalate c q ps
    simp only [List.map_cons, List.flatten_cons] at ih ⊢
    rw [ih, intercalate_cons_cons_char]
    simp [List.append_assoc]

theorem pyRstrip_append_space (s : List Char) (c : Char) (h : isSpaceChar c = true) :
    pyRstrip (s ++ [c]) = pyRstrip s := by
  unfold pyRstrip
  rw [List.reverse_append]
  simp [List.dropWhile_cons, h]

theorem pyStrip_append_newline (s : List Char) :
    pyStrip (s ++ ['\n']) = pyStrip s := by
  unfold pyStrip
  rw [pyRstrip_append_space s '\n' (by decide)]

/-! Claim C3. -/

/-- C3: appending a newline after every page's text and stripping the
result (the loop of `extract_text_from_pdf`) equals joining the page
texts with a single newline separator and trimming leading and
trailing whitespace from the concatenation. -/
theorem extract_text_from_pdf_eq_join (pages : List (List Char)) :
    extract_text_from_pdf pages = pyStrip (List.intercalate ['\n'] pages) := by
  cases pages with
  | nil => rfl
  | cons p ps =>
    unfold extract_text_from_pdf
    rw [foldl_append_newline '\n' (p :: ps) [], List.nil_append,
        trailing_join_eq_intercalate '\n' p ps, pyStrip_append_newline]

/-! Claim C6. -/

/-- C6: when the lowercased extension of the path is neither `.pdf`
nor `.docx`, `extract_text` returns the absence marker immediately,
whatever the two parsing oracles would return — so no parse of the
file is attempted. -/
theorem extract_text_unsupported (path : String)
    (h1 : pyLower (splitext path.data).2 ≠ ".pdf".data)
    (h2 : pyLower (splitext path.data).2 ≠ ".docx".data)
    (pdfO docxO : String → Option String) :
    extract_text pdfO docxO path = none := by
  simp [extract_text, h1, h2]

/-- Witness for C6 at the path `notes.txt` under oracles that would
return text. -/
theorem extract_text_unsupported_witness :
    pyLower (splitext "notes.txt".data).2 ≠ ".pdf".data ∧
    pyLower (splitext "notes.txt".data).2 ≠ ".docx".data ∧
    extract_text pdfOracleDemo docxOracleDemo "notes.txt" = none :=
  ⟨by decide, by decide,
   extract_text_unsupported "notes.txt" (by decide) (by decide) pdfOracleDemo docxOracleDemo⟩

/-! Claim C7. -/

/-- C7: a filter request with an empty keyword list is rejected with
the invalid-input error for every store and every extraction
behaviour, and the document trace is empty: no stored document is
listed or read on this path. -/
theorem filter_empty_keywords_rejected (store : List String)
    (extract : String → Option String) :
    filter_resumes store extract [] = (Except.error "No keywords provided", []) := rfl

/-! Claim C8. -/

/-- C8: deleting a filename absent from the store signals the
not-found error and leaves the store unchanged; deleting a present
filename succeeds and removes exactly that file. -/
theorem delete_resume_spec (store : List String) (fn : String) :
    (fn ∉ store → delete_resume store fn = (Except.error "Resume not found", store)) ∧
    (fn ∈ store →
      (delete_resume store fn).1 = Except.ok ("Resume " ++ fn ++ " deleted successfully") ∧
      (delete_resume store fn).2 = removeName store fn ∧
      fn ∉ (delete_resume store fn).2) := by
  constructor
  · intro h
    simp [delete_resume, h]
  · intro h
    refine ⟨by simp [delete_resume, h], by simp [delete_resume, h], ?_⟩
    simp [delete_resume, h, removeName, List.mem_filter]

/-- Witness for C8: a missing and a present filename on a one-element
store. -/
theorem delete_resume_spec_witness :
    (("b.pdf" : String) ∉ (["a.pdf"] : List String) ∧
     delete_resume ["a.pdf"] "b.pdf" = (Except.error "Resume not found", ["a.pdf"])) ∧
    (("a.pdf" : String) ∈ (["a.pdf"] : List String) ∧
     (delete_resume ["a.pdf"] "a.pdf").1
        = Except.ok ("Resume " ++ "a.pdf" ++ " deleted successfully") ∧
     (delete_resume ["a.pdf"] "a.pdf").2 = removeName ["a.pdf"] "a.pdf" ∧
     ("a.pdf" : String) ∉ (delete_resume ["a.pdf"] "a.pdf").2) :=
  ⟨⟨by decide, (delete_resume_spec ["a.pdf"] "b.pdf").1 (by decide)⟩,
   ⟨by decide, (delete_resume_spec ["a.pdf"] "a.pdf").2 (by decide)⟩⟩

/-! Claim C10. -/

/-- C10: delete validates no extension: the not-found error occurs
exactly when the filename is absent from the store, and a stored file
with a disallowed extension — which the listing never returns — is
still deleted successfully. -/
theorem delete_ignores_extension (store : List String) (fn : String) :
    ((delete_resume store fn).1 = Except.error "Resume not found" ↔ fn ∉ store) ∧
    (fn ∈ store → is_allowed_file fn = false →
      fn ∉ get_uploaded_resumes store ∧
      (delete_resume store fn).1 = Except.ok ("Resume " ++ fn ++ " deleted successfully") ∧
      (delete_resume store fn).2 = removeName store fn) := by
  constructor
  · by_cases h : fn ∈ store
    · simp [delete_resume, h]
    · simp [delete_resume, h]
  · intro h hext
    refine ⟨?_, by simp [delete_resume, h], by simp [delete_resume, h]⟩
    simp [get_uploaded_resumes, List.mem_filter, hext]

/-- Witness for C10: a stored `cv.txt` is invisible to the listing yet
deletable. -/
theorem delete_ignores_extension_witness :
    ("cv.txt" : String) ∈ (["cv.txt"] : List String) ∧
    is_allowed_file "cv.txt" = false ∧
    (("cv.txt" : String) ∉ get_uploaded_resumes ["cv.txt"] ∧
     (delete_resume ["cv.txt"] "cv.txt").1
        = Except.ok ("Resume " ++ "cv.txt" ++ " deleted successfully") ∧
     (delete_resume ["cv.txt"] "cv.txt").2 = removeName ["cv.txt"] "cv.txt") :=
  ⟨by decide, by decide,
   (delete_ignores_extension ["cv.txt"] "cv.txt").2 (by decide) (by decide)⟩

/-! Claim C1. -/

/-- C1 as stated is false: in the batch `["cv.pdf", "notes.txt"]` the
offending `notes.txt` is rejected with the invalid-extension error
naming it, yet `cv.pdf`, listed before it, has already been written to
the (initially empty) store. -/
theorem upload_not_atomic :
    (upload_resumes [] ["cv.pdf", "notes.txt"]).1
        = Except.error "File notes.txt has invalid extension. Only PDF and DOCX allowed." ∧
    ("cv.pdf" : String) ∈ (upload_resumes [] ["cv.pdf", "notes.txt"]).2 := by
  decide

theorem uploadLoop_first_invalid (bad : String) (rest : List String)
    (hb : is_allowed_file bad = false) :
    ∀ (good store uploaded : List String),
      (∀ f ∈ good, is_allowed_file f = true) →
      uploadLoop store uploaded (good ++ bad :: rest)
        = (Except.error ("File " ++ bad ++ " has invalid extension. Only PDF and DOCX allowed."),
           good.foldl writeFile store)
  | [], store, up, _ => by simp [uploadLoop, hb]
  | g :: gs, store, up, hg => by
    have hgt : is_allowed_file g = true := hg g (List.mem_cons_self g gs)
    have ih := uploadLoop_first_invalid bad rest hb gs (writeFile store g) (up ++ [g])
      (fun f hf => hg f (List.mem_cons_of_mem g hf))
    simp [uploadLoop, hgt, ih, List.foldl_cons]

/-- C1 (amended): a batch containing a disallowed extension is
rejected with the invalid-extension error naming the first offending
file, and no file from that position onward is written — but every
valid file listed before the first offending one has already been
saved to the store. -/
theorem upload_rejects_at_first_invalid (store good rest : List String) (bad : String)
    (hg : ∀ f ∈ good, is_allowed_file f = true) (hb : is_allowed_file bad = false) :
    upload_resumes store (good ++ bad :: rest)
      = (Except.error ("File " ++ bad ++ " has invalid extension. Only PDF and DOCX allowed."),
         good.foldl writeFile store) := by
  have hne : (good ++ bad :: rest).isEmpty = false := by
    cases good <;> rfl
  unfold upload_resumes
  rw [hne]
  simp only [Bool.false_eq_true, if_false]
  exact uploadLoop_first_invalid bad rest hb good store [] hg

/-- Witness for the amended C1: the valid `cv.pdf` listed before the
offending `notes.txt` is written before the rejection. -/
theorem upload_rejects_at_first_invalid_witness :
    is_allowed_file "cv.pdf" = true ∧
    is_allowed_file "notes.txt" = false ∧
    upload_resumes [] (["cv.pdf"] ++ "notes.txt" :: [])
      = (Except.error
           ("File " ++ "notes.txt" ++ " has invalid extension. Only PDF and DOCX allowed."),
         (["cv.pdf"] : List String).foldl writeFile []) :=
  ⟨by decide, by decide,
   upload_rejects_at_first_invalid [] ["cv.pdf"] [] "notes.txt" (by decide) (by decide)⟩

/-! Helper lemmas for claim C4: the filter loop versus its spec-side
form, and stability of the stable descending sort. -/

theorem processDocs_fst_eq_keptSpec (kws : List String) :
    ∀ docs : List (String × Option String), (processDocs kws docs).1 = keptSpec kws docs
  | [] => rfl
  | (fn, t) :: rest => by
    have ih := processDocs_fst_eq_keptSpec kws rest
    by_cases h : textFalsy t = true
    · have h0 : search_keywords t kws = ([], 0) := search_keywords_falsy t kws h
      simp [processDocs, keptSpec, List.filterMap_cons, h, h0, ih]
    · by_cases hr : 0 < (search_keywords t kws).2
      · simp [processDocs, keptSpec, List.filterMap_cons, h, hr, ih]
      · simp [processDocs, keptSpec, List.filterMap_cons, h, hr, ih]

theorem orderedInsert_filter_score (s : Nat) (a : ResumeMatch) :
    ∀ l : List ResumeMatch,
      (List.orderedInsert scoreGe a l).filter (scoreIs s)
        = if scoreIs s a then a :: l.filter (scoreIs s) else l.filter (scoreIs s)
  | [] => by
    by_cases h : scoreIs s a <;> simp [List.orderedInsert, List.filter, h]
  | b :: l => by
    have ih := orderedInsert_filter_score s a l
    by_cases hab : scoreGe a b
    · rw [List.orderedInsert, if_pos hab]
      by_cases h : scoreIs s a <;> simp [List.filter_cons, h]
    · rw [List.orderedInsert, if_neg hab]
      have hlt : a.score < b.score := Nat.lt_of_not_le hab
      by_cases hsa : a.score = s
      · have ha : scoreIs s a = true := by simp [scoreIs, hsa]
        have hb : scoreIs s b = false := by
          simp only [scoreIs, beq_eq_false_iff_ne]
          omega
        simp [List.filter_cons, ha, hb, ih]
      · have ha : scoreIs s a = false := by simp [scoreIs, hsa]
        simp [List.filter_cons, ha, ih]

theorem insertionSort_filter_score (s : Nat) :
    ∀ l : List ResumeMatch,
      (List.insertionSort scoreGe l).filter (scoreIs s) = l.filter (scoreIs s)
  | [] => rfl
  | a :: l => by
    have ih := insertionSort_filter_score s l
    rw [List.insertionSort, orderedInsert_filter_score s a (List.insertionSort scoreGe l), ih]
    by_cases h : scoreIs s a <;> simp [List.filter_cons, h]

theorem keptSpec_all_pos (kws : List String) :
    ∀ docs : List (String × Option String), (keptSpec kws docs).all scorePos = true
  | [] => rfl
  | d :: rest => by
    have ih := keptSpec_all_pos kws rest
    by_cases h : 0 < (search_keywords d.2 kws).2
    · simp only [keptSpec, List.filterMap_cons] at ih ⊢
      rw [if_pos h]
      simp [List.all_cons, ih, scorePos]
      omega
    · simp only [keptSpec, List.filterMap_cons] at ih ⊢
      rw [if_neg h]
      exact ih

/-! Claim C4. -/

/-- C4: with a non-empty keyword list the filter succeeds; its
`matched_resumes` list is sorted by score descending; for the given
score `s`, the results scoring `s` appear exactly as the kept
documents scoring `s` do, in listing order (stability on ties); the
result is a permutation of the kept documents, all of which have
positive score; and `total_resumes` counts every listed document. -/
theorem filter_resumes_sorted_stable (store : List String)
    (extract : String → Option String) (kws : List String) (s : Nat) (h : kws ≠ []) :
    (filter_resumes store extract kws).1.isOk = true ∧
    List.Sorted scoreGe (matchedOf (filter_resumes store extract kws).1) ∧
    (matchedOf (filter_resumes store extract kws).1).filter (scoreIs s)
      = (keptSpec kws (listedDocs store extract)).filter (scoreIs s) ∧
    List.Perm (matchedOf (filter_resumes store extract kws).1)
      (keptSpec kws (listedDocs store extract)) ∧
    (keptSpec kws (listedDocs store extract)).all scorePos = true ∧
    totalOf (filter_resumes store extract kws).1 = (listedDocs store extract).length := by
  have hne : kws.isEmpty = false := by
    cases kws with
    | nil => exact absurd rfl h
    | cons a l => rfl
  by_cases hres : (get_uploaded_resumes store).isEmpty
  · have hnil : get_uploaded_resumes store = [] := by
      cases hx : get_uploaded_resumes store with
      | nil => rfl
      | cons a l => rw [hx] at hres; exact absurd hres (by simp)
    refine ⟨?_, ?_, ?_, ?_, ?_, ?_⟩ <;>
      simp [filter_resumes, hne, hres, matchedOf, totalOf, listedDocs, hnil, keptSpec,
        Except.isOk, Except.toBool]
  · have hmain : filter_resumes store extract kws
        = (Except.ok
            { matched_resumes := List.insertionSort scoreGe
                (processDocs kws (listedDocs store extract)).1,
              total_resumes := (get_uploaded_resumes store).length },
           (processDocs kws (listedDocs store extract)).2) := by
      simp [filter_resumes, hne, hres, listedDocs]
    rw [hmain]
    refine ⟨rfl, ?_, ?_, ?_, keptSpec_all_pos kws _, ?_⟩
    · simp only [matchedOf]
      exact List.sorted_insertionSort scoreGe _
    · simp only [matchedOf]
      rw [insertionSort_filter_score, processDocs_fst_eq_keptSpec]
    · simp only [matchedOf]
      rw [processDocs_fst_eq_keptSpec]
      exact List.perm_insertionSort scoreGe _
    · simp [totalOf, listedDocs]

/-- Witness for C4 on a concrete three-file store. -/
theorem filter_resumes_sorted_stable_witness :
    (filter_resumes ["a.pdf", "b.docx", "c.txt"] extractDemo ["python", "sql"]).1.isOk = true ∧
    List.Sorted scoreGe
      (matchedOf (filter_resumes ["a.pdf", "b.docx", "c.txt"] extractDemo ["python", "sql"]).1) ∧
    (matchedOf
        (filter_resumes ["a.pdf", "b.docx", "c.txt"] extractDemo ["python", "sql"]).1).filter
        (scoreIs 1)
      = (keptSpec ["python", "sql"] (listedDocs ["a.pdf", "b.docx", "c.txt"] extractDemo)).filter
        (scoreIs 1) ∧
    List.Perm
      (matchedOf (filter_resumes ["a.pdf", "b.docx", "c.txt"] extractDemo ["python", "sql"]).1)
      (keptSpec ["python", "sql"] (listedDocs ["a.pdf", "b.docx", "c.txt"] extractDemo)) ∧
    (keptSpec ["python", "sql"] (listedDocs ["a.pdf", "b.docx", "c.txt"] extractDemo)).all
        scorePos = true ∧
    totalOf (filter_resumes ["a.pdf", "b.docx", "c.txt"] extractDemo ["python", "sql"]).1
      = (listedDocs ["a.pdf", "b.docx", "c.txt"] extractDemo).length :=
  filter_resumes_sorted_stable ["a.pdf", "b.docx", "c.txt"] extractDemo ["python", "sql"] 1
    (by decide)

end ResumeFilter
